import Mathlib

/-!
Shallow embedding of `src/nexis_biometric_collector.py` (TelemetryDatabase).

Python dictionaries with string keys are modelled as association lists
`List (String × α)` with first-match lookup; numeric values (Python floats
and ints) are modelled as rationals `ℚ`; `datetime` timestamps are modelled
as an abstract `Nat` tag.  Simulated sensor draws (`np.random...`) and the
clock fields (`timestamp.hour`, `timestamp.weekday()`) are modelled as
inputs supplied by an environment record, since they are the only
nondeterminism in the program.
-/

namespace Nexis

/-- A Python string-keyed dictionary, as an association list (first match wins;
a dict built by Python has distinct keys). -/
abbrev Dict (α : Type) := List (String × α)

/-- `d.get(k, dflt)` / `d[k]`-with-default: value of the first pair whose key
is `k`, else the default. -/
def aget {α : Type} (dflt : α) : Dict α → String → α
  | [], _ => dflt
  | (k', v) :: rest, k => if k' = k then v else aget dflt rest k

/-- Python `k in d`: membership of `k` among the keys of `d`. -/
def hasKey {α : Type} : Dict α → String → Bool
  | [], _ => false
  | (k', _) :: rest, k => if k' = k then true else hasKey rest k

/-- In-place update `d[k] = f d[k]` of a Python dict: rewrite every pair whose
key is `k` (at most one in a real dict), leave the rest alone. -/
def dset {α : Type} : Dict α → String → (α → α) → Dict α
  | [], _, _ => []
  | (k', v) :: rest, k, f =>
    if k' = k then (k', f v) :: dset rest k f else (k', v) :: dset rest k f

/-- The keys of a dict, in order. -/
def keys {α : Type} (d : Dict α) : List String := d.map Prod.fst

/-- `@dataclass BiometricState`: a timestamp plus the four category mappings
(`physiological`, `cognitive`, `behavioral`, `environmental`). -/
structure BiometricState where
  timestamp : Nat
  physiological : Dict ℚ
  cognitive : Dict ℚ
  behavioral : Dict ℚ
  environmental : Dict ℚ

/-- The 15 features extracted from a single `BiometricState` by the loop body
of `create_cognitive_embeddings` (lines 133-165): 5 physiological, then 4
cognitive, then 2 behavioral, then 4 environmental, with `time_of_day`
divided by 24.0 and `day_of_week` divided by 7.0, every lookup defaulting
to 0. -/
def stateFeatures (state : BiometricState) : List ℚ :=
  [aget 0 state.physiological "heart_rate",
   aget 0 state.physiological "hrv_rmssd",
   aget 0 state.physiological "gsr",
   aget 0 state.physiological "temperature",
   aget 0 state.physiological "respiratory_rate",
   aget 0 state.cognitive "attention_level",
   aget 0 state.cognitive "cognitive_load",
   aget 0 state.cognitive "focus_stability",
   aget 0 state.cognitive "executive_function",
   aget 0 state.behavioral "typing_rhythm",
   aget 0 state.behavioral "stress_indicators",
   aget 0 state.environmental "time_of_day" / 24,
   aget 0 state.environmental "day_of_week" / 7,
   aget 0 state.environmental "ambient_light",
   aget 0 state.environmental "noise_level"]

/-- The `features` list accumulated by the `for state in telemetry_window`
loop: per-state features concatenated in window order (`features.extend`). -/
def windowFeatures (telemetry_window : List BiometricState) : List ℚ :=
  telemetry_window.foldl (fun features state => features ++ stateFeatures state) []

/-- `create_cognitive_embeddings` (lines 123-172): all-zero 768-vector for an
empty window (`if not telemetry_window`); otherwise the concatenated
features truncated to 768 (`features[:768]`) and right-padded with `0.0`
up to 768 (`features.extend([0.0] * (768 - len(features)))`). -/
def create_cognitive_embeddings (telemetry_window : List BiometricState) : List ℚ :=
  if telemetry_window.isEmpty then
    List.replicate 768 0
  else
    let features := windowFeatures telemetry_window
    let features := features.take 768
    if features.length < 768 then
      features ++ List.replicate (768 - features.length) 0
    else
      features

theorem windowFeatures_cons (s : BiometricState) (w : List BiometricState) :
    windowFeatures (s :: w) = stateFeatures s ++ windowFeatures w := by
  have h : ∀ (w : List BiometricState) (acc : List ℚ),
      w.foldl (fun features state => features ++ stateFeatures state) acc =
        acc ++ w.foldl (fun features state => features ++ stateFeatures state) [] := by
    intro w
    induction w with
    | nil => simp
    | cons x xs ih =>
      intro acc
      simp only [List.foldl_cons, List.nil_append]
      rw [ih (acc ++ stateFeatures x), ih (stateFeatures x), List.append_assoc]
  simp only [windowFeatures, List.foldl_cons, List.nil_append]
  exact h w (stateFeatures s)

theorem stateFeatures_length (s : BiometricState) : (stateFeatures s).length = 15 := rfl

theorem create_eq_pad (w : List BiometricState) (hne : w ≠ [])
    (hlt : (windowFeatures w).length < 768) :
    create_cognitive_embeddings w =
      windowFeatures w ++ List.replicate (768 - (windowFeatures w).length) 0 := by
  obtain ⟨s, w', rfl⟩ := List.exists_cons_of_ne_nil hne
  simp only [create_cognitive_embeddings, List.isEmpty_cons, Bool.false_eq_true, if_false]
  rw [List.take_of_length_le (le_of_lt hlt), if_pos hlt]

theorem create_eq_trunc (w : List BiometricState) (hne : w ≠ [])
    (hge : 768 ≤ (windowFeatures w).length) :
    create_cognitive_embeddings w = (windowFeatures w).take 768 := by
  obtain ⟨s, w', rfl⟩ := List.exists_cons_of_ne_nil hne
  simp only [create_cognitive_embeddings, List.isEmpty_cons, Bool.false_eq_true, if_false]
  rw [if_neg]
  rw [List.length_take, not_lt]
  omega

/-- A concrete one-reading window used to instantiate hypotheses: all four
category dictionaries empty, so every feature lookup defaults to 0. -/
def sampleState : BiometricState := ⟨0, [], [], [], []⟩

/-- **C1.** For every non-empty window, `create_cognitive_embeddings` returns
the concatenated raw feature values in window order, truncated to the first
768 values when 768 or more are produced, and right-padded with exact zeros
from the raw count up to index 768 when fewer are produced. -/
theorem c1_truncate_or_pad (telemetry_window : List BiometricState)
    (h : telemetry_window ≠ []) :
    (768 ≤ (windowFeatures telemetry_window).length →
      create_cognitive_embeddings telemetry_window =
        (windowFeatures telemetry_window).take 768)
    ∧ ((windowFeatures telemetry_window).length < 768 →
      create_cognitive_embeddings telemetry_window =
        windowFeatures telemetry_window ++
          List.replicate (768 - (windowFeatures telemetry_window).length) 0) :=
  ⟨fun hge => create_eq_trunc telemetry_window h hge,
   fun hlt => create_eq_pad telemetry_window h hlt⟩

theorem c1_truncate_or_pad_witness :
    ([sampleState] ≠ ([] : List BiometricState))
    ∧ (windowFeatures [sampleState]).length < 768
    ∧ create_cognitive_embeddings [sampleState] =
        windowFeatures [sampleState] ++
          List.replicate (768 - (windowFeatures [sampleState]).length) 0 :=
  ⟨List.cons_ne_nil _ _, by decide,
   (c1_truncate_or_pad [sampleState] (List.cons_ne_nil _ _)).2 (by decide)⟩

/-- **C2.** For the empty window, `create_cognitive_embeddings` returns the
length-768 all-zero vector (`np.zeros(768)`). -/
theorem c2_empty_window_all_zeros :
    create_cognitive_embeddings [] = List.replicate 768 0 := rfl

/-- **C3.** For every window of `BiometricState`s, of any length, the vector
returned by `create_cognitive_embeddings` has length exactly 768. -/
theorem c3_embedding_length_768 (telemetry_window : List BiometricState) :
    (create_cognitive_embeddings telemetry_window).length = 768 := by
  cases telemetry_window with
  | nil =>
    simp only [create_cognitive_embeddings, List.isEmpty_nil, if_true, List.length_replicate]
  | cons s w =>
    simp only [create_cognitive_embeddings, List.isEmpty_cons, Bool.false_eq_true, if_false]
    set features := (windowFeatures (s :: w)).take 768 with hf
    have hle : features.length ≤ 768 := by
      rw [hf, List.length_take]
      exact min_le_left _ _
    rcases lt_or_ge features.length 768 with hlt | hge
    · rw [if_pos hlt, List.length_append, List.length_replicate]
      omega
    · rw [if_neg (not_lt.mpr hge)]
      omega

/-- The spec's one-reading example window: all metric names as sampled by
`collect_current_state`, symbolic values for the sensor draws, with
`time_of_day = 12`, `day_of_week = 3`, `ambient_light = 0.5`,
`noise_level = 0.2`. -/
def exampleReading (ts : Nat) (hr hrv gsr temp rr att load focus exec typing mouse task stress : ℚ) :
    BiometricState :=
  ⟨ts,
   [("heart_rate", hr), ("hrv_rmssd", hrv), ("gsr", gsr), ("temperature", temp),
    ("respiratory_rate", rr)],
   [("attention_level", att), ("cognitive_load", load), ("focus_stability", focus),
    ("executive_function", exec)],
   [("typing_rhythm", typing), ("mouse_dynamics", mouse), ("task_switching", task),
    ("stress_indicators", stress)],
   [("time_of_day", 12), ("day_of_week", 3), ("ambient_light", 1/2), ("noise_level", 1/5)]⟩

/-- **C4.** The encoder extracts exactly 15 numbers per reading in the fixed
declared order (5 physiological, 4 cognitive, 2 behavioral, 4 environmental,
with `time_of_day / 24` and `day_of_week / 7`); on the spec's one-reading
example window the first 15 entries are the five physiological values, the
four cognitive values, the two behavioral values, then
`[12/24, 3/7, 0.5, 0.2]`, and entries 15..767 are 0. -/
theorem c4_fifteen_features_example
    (ts : Nat) (hr hrv gsr temp rr att load focus exec typing mouse task stress : ℚ) :
    (∀ s : BiometricState, (stateFeatures s).length = 15)
    ∧ stateFeatures (exampleReading ts hr hrv gsr temp rr att load focus exec typing mouse task stress) =
        [hr, hrv, gsr, temp, rr, att, load, focus, exec, typing, stress, 12/24, 3/7, 1/2, 1/5]
    ∧ create_cognitive_embeddings
        [exampleReading ts hr hrv gsr temp rr att load focus exec typing mouse task stress] =
        [hr, hrv, gsr, temp, rr, att, load, focus, exec, typing, stress, 12/24, 3/7, 1/2, 1/5] ++
          List.replicate 753 0 := by
  have hfeat : stateFeatures
      (exampleReading ts hr hrv gsr temp rr att load focus exec typing mouse task stress) =
      [hr, hrv, gsr, temp, rr, att, load, focus, exec, typing, stress, 12/24, 3/7, 1/2, 1/5] := rfl
  refine ⟨fun s => stateFeatures_length s, hfeat, ?_⟩
  have hwin : windowFeatures
      [exampleReading ts hr hrv gsr temp rr att load focus exec typing mouse task stress] =
      [hr, hrv, gsr, temp, rr, att, load, focus, exec, typing, stress, 12/24, 3/7, 1/2, 1/5] := by
    rw [windowFeatures_cons, hfeat]
    simp [windowFeatures]
  have hlen : (windowFeatures
      [exampleReading ts hr hrv gsr temp rr att load focus exec typing mouse task stress]).length
      = 15 := by
    rw [hwin]
    rfl
  rw [create_eq_pad _ (List.cons_ne_nil _ _) (by rw [hlen]; norm_num), hwin]
  norm_num

/-- **C5.** If a reading's environmental `time_of_day` value lies in `[0, 23]`
and its `day_of_week` value lies in `[0, 6]` (as hour-of-day and weekday do),
then the corresponding encoded entries (positions 11 and 12 of the per-reading
features, i.e. `time_of_day / 24` and `day_of_week / 7`) lie in `[0, 1]`. -/
theorem c5_normalized_time_fields_in_unit_interval (s : BiometricState)
    (h1 : 0 ≤ aget 0 s.environmental "time_of_day")
    (h2 : aget 0 s.environmental "time_of_day" ≤ 23)
    (h3 : 0 ≤ aget 0 s.environmental "day_of_week")
    (h4 : aget 0 s.environmental "day_of_week" ≤ 6) :
    (0 ≤ (stateFeatures s).getD 11 0 ∧ (stateFeatures s).getD 11 0 ≤ 1)
    ∧ (0 ≤ (stateFeatures s).getD 12 0 ∧ (stateFeatures s).getD 12 0 ≤ 1) := by
  have e11 : (stateFeatures s).getD 11 0 = aget 0 s.environmental "time_of_day" / 24 := rfl
  have e12 : (stateFeatures s).getD 12 0 = aget 0 s.environmental "day_of_week" / 7 := rfl
  rw [e11, e12]
  refine ⟨⟨div_nonneg h1 (by norm_num), ?_⟩, ⟨div_nonneg h3 (by norm_num), ?_⟩⟩
  · rw [div_le_one (by norm_num : (0:ℚ) < 24)]
    linarith
  · rw [div_le_one (by norm_num : (0:ℚ) < 7)]
    linarith

theorem c5_normalized_time_fields_witness :
    (0 ≤ (stateFeatures ⟨0, [], [], [], [("time_of_day", 12), ("day_of_week", 3)]⟩).getD 11 0
      ∧ (stateFeatures ⟨0, [], [], [], [("time_of_day", 12), ("day_of_week", 3)]⟩).getD 11 0 ≤ 1)
    ∧ (0 ≤ (stateFeatures ⟨0, [], [], [], [("time_of_day", 12), ("day_of_week", 3)]⟩).getD 12 0
      ∧ (stateFeatures ⟨0, [], [], [], [("time_of_day", 12), ("day_of_week", 3)]⟩).getD 12 0 ≤ 1) :=
  c5_normalized_time_fields_in_unit_interval
    ⟨0, [], [], [], [("time_of_day", 12), ("day_of_week", 3)]⟩
    (by decide) (by decide) (by decide) (by decide)

/-- One appended element of a telemetry stream:
`{'timestamp': state.timestamp, 'value': value}`. -/
structure Entry where
  timestamp : Nat
  value : ℚ
deriving DecidableEq

/-- One category's streams: metric name → ordered sequence of entries. -/
abbrev MetricLog := Dict (List Entry)

/-- `self.telemetry_streams`: category → metric name → entries. -/
abbrev Streams := Dict MetricLog

/-- `self.telemetry_streams` as initialised in `NexisBiometricCollector.__init__`
(lines 28-59): four categories with their pre-declared metric names, every
sequence empty. -/
def initTelemetryStreams : Streams :=
  [("physiological",
    [("heart_rate_variability", []), ("galvanic_skin_response", []),
     ("eye_tracking_patterns", []), ("brain_wave_states", []),
     ("respiratory_patterns", []), ("temperature_fluctuations", [])]),
   ("cognitive_state",
    [("attention_vectors", []), ("context_switch_patterns", []),
     ("decision_hesitation_markers", []), ("cognitive_load_indicators", []),
     ("hyperfocus_episodes", []), ("executive_function_states", [])]),
   ("behavioral_patterns",
    [("typing_dynamics", []), ("code_writing_patterns", []),
     ("problem_solving_sequences", []), ("communication_styles", []),
     ("stress_response_patterns", []), ("creativity_bursts", [])]),
   ("environmental_context",
    [("time_of_day_performance", []), ("ambient_conditions", []),
     ("social_interaction_modes", []), ("task_type_preferences", [])])]

/-- The mutable fields of `NexisBiometricCollector`. -/
structure Collector where
  telemetry_streams : Streams
  collection_active : Bool
  sample_rate : ℚ

/-- The collector right after `__init__`: initial streams, flag down, 1 Hz. -/
def Collector.init : Collector := ⟨initTelemetryStreams, false, 1⟩

/-- Inner loop of `process_and_store` for one category (lines 183-188): for
each `(key, value)` of the reading's mapping, append
`{'timestamp': ts, 'value': value}` to `telemetry_streams[category][key]`
when `key in telemetry_streams[category]`, else do nothing. -/
def storeCategory (ts : Nat) (log : MetricLog) (data : Dict ℚ) : MetricLog :=
  data.foldl
    (fun log kv =>
      if hasKey log kv.1 then dset log kv.1 (fun l => l ++ [⟨ts, kv.2⟩]) else log)
    log

/-- The `(category, data)` pairs iterated by `process_and_store` (lines
177-182). -/
def categoryPairs (state : BiometricState) : List (String × Dict ℚ) :=
  [("physiological", state.physiological),
   ("cognitive_state", state.cognitive),
   ("behavioral_patterns", state.behavioral),
   ("environmental_context", state.environmental)]

/-- The update of `self.telemetry_streams` performed by `process_and_store`. -/
def storeStreams (streams : Streams) (state : BiometricState) : Streams :=
  (categoryPairs state).foldl
    (fun streams cd => dset streams cd.1 (fun log => storeCategory state.timestamp log cd.2))
    streams

/-- `_get_recent_states` (lines 197-201): stub, returns the empty list for
every `window_minutes` argument and every collector state. -/
def _get_recent_states (window_minutes : Nat) (c : Collector) : List BiometricState :=
  []

/-- `process_and_store` (lines 174-195): appends the reading's metrics into
the telemetry streams, then computes the embedding of the recent window
(`_get_recent_states(window_minutes=5)`) and hands it to the persistence stub
`_store_training_data`.  Returns the updated collector together with the
embedding vector passed to the stub. -/
def process_and_store (c : Collector) (state : BiometricState) : Collector × List ℚ :=
  let c' : Collector := { c with telemetry_streams := storeStreams c.telemetry_streams state }
  let recent_states := _get_recent_states 5 c'
  let embeddings := create_cognitive_embeddings recent_states
  (c', embeddings)

/-- The nondeterministic inputs of one `collect_current_state` call: the
simulated sensor draws and the clock readings (`timestamp.hour`,
`timestamp.weekday()`). -/
structure SimEnv where
  ts : Nat
  heart_rate : ℚ
  hrv_rmssd : ℚ
  gsr : ℚ
  temperature : ℚ
  respiratory_rate : ℚ
  attention_level : ℚ
  cognitive_load : ℚ
  focus_stability : ℚ
  executive_function : ℚ
  typing_rhythm : ℚ
  mouse_dynamics : ℚ
  task_switching : ℚ
  stress_indicators : ℚ
  time_of_day : ℚ
  day_of_week : ℚ
  ambient_light : ℚ
  noise_level : ℚ

/-- `collect_current_state` (lines 81-121): builds a `BiometricState` whose
four mappings carry the fixed sampled metric names, populated from the
environment's draws. -/
def collect_current_state (e : SimEnv) : BiometricState :=
  ⟨e.ts,
   [("heart_rate", e.heart_rate), ("hrv_rmssd", e.hrv_rmssd), ("gsr", e.gsr),
    ("temperature", e.temperature), ("respiratory_rate", e.respiratory_rate)],
   [("attention_level", e.attention_level), ("cognitive_load", e.cognitive_load),
    ("focus_stability", e.focus_stability), ("executive_function", e.executive_function)],
   [("typing_rhythm", e.typing_rhythm), ("mouse_dynamics", e.mouse_dynamics),
    ("task_switching", e.task_switching), ("stress_indicators", e.stress_indicators)],
   [("time_of_day", e.time_of_day), ("day_of_week", e.day_of_week),
    ("ambient_light", e.ambient_light), ("noise_level", e.noise_level)]⟩

/-- Folding the sample → aggregate-and-encode pipeline over a list of
environments, one per loop iteration. -/
def pipeline_iterations (es : List SimEnv) (c : Collector) : Collector :=
  es.foldl (fun c e => (process_and_store c (collect_current_state e)).1) c

/-- **C8.** `_get_recent_states` returns the empty list for every argument and
every collector state, so every `process_and_store` call computes its
embedding from the empty window and passes the all-zero length-768 vector to
the persistence stub. -/
theorem c8_recent_window_stub (window_minutes : Nat) (c c' : Collector)
    (state : BiometricState) :
    _get_recent_states window_minutes c = []
    ∧ (process_and_store c' state).2 = List.replicate 768 0 :=
  ⟨rfl, rfl⟩

theorem keys_dset {α : Type} (d : Dict α) (k : String) (f : α → α) :
    keys (dset d k f) = keys d := by
  induction d with
  | nil => rfl
  | cons p rest ih =>
    obtain ⟨a, v⟩ := p
    by_cases h : a = k
    · simp [dset, h, keys, keys] at ih ⊢
      exact ih
    · simp [dset, h, keys] at ih ⊢
      exact ih

theorem hasKey_dset {α : Type} (d : Dict α) (k' : String) (f : α → α) (k : String) :
    hasKey (dset d k' f) k = hasKey d k := by
  induction d with
  | nil => rfl
  | cons p rest ih =>
    obtain ⟨a, v⟩ := p
    by_cases h : a = k'
    · simp [dset, h, hasKey, ih]
    · simp [dset, h, hasKey, ih]

theorem aget_dset_ne {α : Type} (dflt : α) (d : Dict α) (k' : String) (f : α → α)
    (k : String) (hne : k' ≠ k) :
    aget dflt (dset d k' f) k = aget dflt d k := by
  induction d with
  | nil => rfl
  | cons p rest ih =>
    obtain ⟨a, v⟩ := p
    by_cases h : a = k'
    · subst h
      simp [dset, aget, hne, ih]
    · simp [dset, aget, h, ih]

theorem aget_dset_self {α : Type} (dflt : α) (d : Dict α) (k : String) (f : α → α)
    (hk : hasKey d k = true) :
    aget dflt (dset d k f) k = f (aget dflt d k) := by
  induction d with
  | nil => cases hk
  | cons p rest ih =>
    obtain ⟨a, v⟩ := p
    by_cases h : a = k
    · subst h
      simp [dset, aget]
    · simp only [hasKey] at hk
      rw [if_neg h] at hk
      simp [dset, aget, h, ih hk]

theorem aget_dset_not_has {α : Type} (dflt : α) (d : Dict α) (k' : String)
    (f : α → α) (k : String) (hk : hasKey d k = false) :
    aget dflt (dset d k' f) k = aget dflt d k := by
  induction d with
  | nil => rfl
  | cons p rest ih =>
    obtain ⟨a, v⟩ := p
    by_cases h2 : a = k
    · simp only [hasKey] at hk
      rw [if_pos h2] at hk
      cases hk
    · simp only [hasKey] at hk
      rw [if_neg h2] at hk
      by_cases h : a = k'
      · subst h
        simp [dset, aget, h2, ih hk]
      · simp [dset, aget, h, h2, ih hk]

theorem hasKey_eq_true_iff {α : Type} (d : Dict α) (k : String) :
    hasKey d k = true ↔ k ∈ keys d := by
  induction d with
  | nil => simp [hasKey, keys]
  | cons p rest ih =>
    obtain ⟨a, v⟩ := p
    by_cases h : a = k
    · simp [hasKey, keys, h]
    · simp [hasKey, keys, h, Ne.symm h] at ih ⊢
      exact ih

theorem storeCategory_cons (ts : Nat) (log : MetricLog) (kv : String × ℚ)
    (rest : Dict ℚ) :
    storeCategory ts log (kv :: rest) =
      storeCategory ts
        (if hasKey log kv.1 then dset log kv.1 (fun l => l ++ [⟨ts, kv.2⟩]) else log)
        rest := rfl

theorem hasKey_storeCategory (ts : Nat) (log : MetricLog) (data : Dict ℚ) (k : String) :
    hasKey (storeCategory ts log data) k = hasKey log k := by
  induction data generalizing log with
  | nil => rfl
  | cons kv rest ih =>
    rw [storeCategory_cons, ih]
    by_cases h : hasKey log kv.1
    · rw [if_pos h, hasKey_dset]
    · rw [if_neg h]

theorem keys_storeCategory (ts : Nat) (log : MetricLog) (data : Dict ℚ) :
    keys (storeCategory ts log data) = keys log := by
  induction data generalizing log with
  | nil => rfl
  | cons kv rest ih =>
    rw [storeCategory_cons, ih]
    by_cases h : hasKey log kv.1
    · rw [if_pos h, keys_dset]
    · rw [if_neg h]

theorem aget_storeCategory_not_mem (ts : Nat) (log : MetricLog) (data : Dict ℚ)
    (k : String) (hk : k ∉ data.map Prod.fst) :
    aget [] (storeCategory ts log data) k = aget [] log k := by
  induction data generalizing log with
  | nil => rfl
  | cons kv rest ih =>
    simp only [List.map_cons, List.mem_cons, not_or] at hk
    rw [storeCategory_cons, ih _ hk.2]
    by_cases h : hasKey log kv.1
    · rw [if_pos h, aget_dset_ne _ _ _ _ _ (fun he => hk.1 he.symm)]
    · rw [if_neg h]

theorem aget_storeCategory_undeclared (ts : Nat) (log : MetricLog) (data : Dict ℚ)
    (k : String) (hk : hasKey log k = false) :
    aget [] (storeCategory ts log data) k = aget [] log k := by
  induction data generalizing log with
  | nil => rfl
  | cons kv rest ih =>
    rw [storeCategory_cons]
    by_cases h : hasKey log kv.1
    · rw [if_pos h, ih _ (by rw [hasKey_dset]; exact hk),
        aget_dset_not_has _ _ _ _ _ hk]
    · rw [if_neg h, ih _ hk]

theorem aget_storeCategory_append (ts : Nat) (log : MetricLog) (data : Dict ℚ)
    (k : String) (v : ℚ) (hnd : (data.map Prod.fst).Nodup) (hkv : (k, v) ∈ data)
    (hdecl : hasKey log k = true) :
    aget [] (storeCategory ts log data) k = aget [] log k ++ [⟨ts, v⟩] := by
  induction data generalizing log with
  | nil => cases hkv
  | cons kv rest ih =>
    simp only [List.map_cons, List.nodup_cons] at hnd
    rw [storeCategory_cons]
    rcases List.mem_cons.mp hkv with heq | hmem
    · obtain rfl := heq.symm
      rw [if_pos hdecl,
        aget_storeCategory_not_mem _ _ _ _ hnd.1,
        aget_dset_self _ _ _ _ hdecl]
    · have hkmem : k ∈ rest.map Prod.fst :=
        List.mem_map.mpr ⟨(k, v), hmem, rfl⟩
      have hne : kv.1 ≠ k := fun he => hnd.1 (he ▸ hkmem)
      by_cases h : hasKey log kv.1
      · rw [if_pos h,
          ih _ hnd.2 hmem (by rw [hasKey_dset]; exact hdecl),
          aget_dset_ne _ _ _ _ _ hne]
      · rw [if_neg h, ih _ hnd.2 hmem hdecl]

theorem storeStreams_unfold (streams : Streams) (state : BiometricState) :
    storeStreams streams state =
      dset (dset (dset (dset streams
        "physiological" (fun log => storeCategory state.timestamp log state.physiological))
        "cognitive_state" (fun log => storeCategory state.timestamp log state.cognitive))
        "behavioral_patterns" (fun log => storeCategory state.timestamp log state.behavioral))
        "environmental_context" (fun log => storeCategory state.timestamp log state.environmental) :=
  rfl

theorem aget_storeStreams (streams : Streams) (state : BiometricState)
    (cat : String) (d : Dict ℚ) (hcd : (cat, d) ∈ categoryPairs state)
    (hk : hasKey streams cat = true) :
    aget [] (storeStreams streams state) cat =
      storeCategory state.timestamp (aget [] streams cat) d := by
  have hhk : ∀ (s : Streams) (k' : String) (f : MetricLog → MetricLog),
      hasKey (dset s k' f) cat = hasKey s cat := fun s k' f => hasKey_dset s k' f cat
  simp only [categoryPairs, List.mem_cons, List.mem_singleton,
    List.not_mem_nil, or_false, Prod.mk.injEq] at hcd
  rcases hcd with ⟨rfl, rfl⟩ | ⟨rfl, rfl⟩ | ⟨rfl, rfl⟩ | ⟨rfl, rfl⟩
  · rw [storeStreams_unfold,
      aget_dset_ne _ _ _ _ _ (by decide),
      aget_dset_ne _ _ _ _ _ (by decide),
      aget_dset_ne _ _ _ _ _ (by decide),
      aget_dset_self _ _ _ _ hk]
  · rw [storeStreams_unfold,
      aget_dset_ne _ _ _ _ _ (by decide),
      aget_dset_ne _ _ _ _ _ (by decide),
      aget_dset_self _ _ _ _ (by rw [hhk]; exact hk),
      aget_dset_ne _ _ _ _ _ (by decide)]
  · rw [storeStreams_unfold,
      aget_dset_ne _ _ _ _ _ (by decide),
      aget_dset_self _ _ _ _ (by rw [hhk, hhk]; exact hk),
      aget_dset_ne _ _ _ _ _ (by decide),
      aget_dset_ne _ _ _ _ _ (by decide)]
  · rw [storeStreams_unfold,
      aget_dset_self _ _ _ _ (by rw [hhk, hhk, hhk]; exact hk),
      aget_dset_ne _ _ _ _ _ (by decide),
      aget_dset_ne _ _ _ _ _ (by decide),
      aget_dset_ne _ _ _ _ _ (by decide)]

theorem process_and_store_telemetry (c : Collector) (state : BiometricState) :
    (process_and_store c state).1.telemetry_streams = storeStreams c.telemetry_streams state :=
  rfl

/-- **C6.** For a collector whose stream categories are the pre-declared ones,
for every `(category, data)` mapping of a reading and every `(k, v)` entry of
that mapping, `process_and_store` appends the pair (reading's timestamp, `v`)
to the ordered sequence for that category and metric name exactly when `k` is
among the pre-declared metric names of that category; entries with unknown
metric names are silently dropped, with no error and no other change to the
log (other metrics and the key structure are untouched). -/
theorem c6_append_iff_declared (c : Collector) (state : BiometricState)
    (cat : String) (d : Dict ℚ) (k : String) (v : ℚ)
    (hkeys : keys c.telemetry_streams = keys initTelemetryStreams)
    (hcd : (cat, d) ∈ categoryPairs state)
    (hnd : (d.map Prod.fst).Nodup)
    (hkv : (k, v) ∈ d) :
    (hasKey (aget [] c.telemetry_streams cat) k = true →
      aget [] (aget [] (process_and_store c state).1.telemetry_streams cat) k =
        aget [] (aget [] c.telemetry_streams cat) k ++ [⟨state.timestamp, v⟩])
    ∧ (hasKey (aget [] c.telemetry_streams cat) k = false →
      aget [] (aget [] (process_and_store c state).1.telemetry_streams cat) k =
        aget [] (aget [] c.telemetry_streams cat) k)
    ∧ (∀ k', k' ∉ d.map Prod.fst →
      aget [] (aget [] (process_and_store c state).1.telemetry_streams cat) k' =
        aget [] (aget [] c.telemetry_streams cat) k')
    ∧ keys (aget [] (process_and_store c state).1.telemetry_streams cat) =
        keys (aget [] c.telemetry_streams cat) := by
  have hcatkey : hasKey c.telemetry_streams cat = true := by
    rw [hasKey_eq_true_iff, hkeys]
    simp only [categoryPairs, List.mem_cons, List.mem_singleton,
      List.not_mem_nil, or_false, Prod.mk.injEq] at hcd
    rcases hcd with ⟨rfl, _⟩ | ⟨rfl, _⟩ | ⟨rfl, _⟩ | ⟨rfl, _⟩ <;> decide
  have hs := aget_storeStreams c.telemetry_streams state cat d hcd hcatkey
  refine ⟨?_, ?_, ?_, ?_⟩
  · intro hdecl
    rw [process_and_store_telemetry, hs,
      aget_storeCategory_append state.timestamp _ d k v hnd hkv hdecl]
  · intro hundecl
    rw [process_and_store_telemetry, hs,
      aget_storeCategory_undeclared _ _ _ _ hundecl]
  · intro k' hk'
    rw [process_and_store_telemetry, hs,
      aget_storeCategory_not_mem _ _ _ _ hk']
  · rw [process_and_store_telemetry, hs, keys_storeCategory]

/-- A collector with the four pre-declared categories where `heart_rate`
happens to be a declared physiological metric, to exercise the appending
branch of `process_and_store`. -/
def witnessCollector : Collector :=
  ⟨[("physiological", [("heart_rate", [])]),
    ("cognitive_state", []),
    ("behavioral_patterns", []),
    ("environmental_context", [])], false, 1⟩

/-- A concrete reading with fully-populated category mappings. -/
def witnessState : BiometricState :=
  exampleReading 0 70 50 1 98 16 1 1 1 1 1 1 2 1

theorem c6_append_iff_declared_witness :
    (hasKey (aget [] witnessCollector.telemetry_streams "physiological") "heart_rate" = true →
      aget [] (aget [] (process_and_store witnessCollector witnessState).1.telemetry_streams
          "physiological") "heart_rate" =
        aget [] (aget [] witnessCollector.telemetry_streams "physiological") "heart_rate" ++
          [⟨witnessState.timestamp, 70⟩])
    ∧ (hasKey (aget [] witnessCollector.telemetry_streams "physiological") "heart_rate" = false →
      aget [] (aget [] (process_and_store witnessCollector witnessState).1.telemetry_streams
          "physiological") "heart_rate" =
        aget [] (aget [] witnessCollector.telemetry_streams "physiological") "heart_rate")
    ∧ (∀ k', k' ∉ witnessState.physiological.map Prod.fst →
      aget [] (aget [] (process_and_store witnessCollector witnessState).1.telemetry_streams
          "physiological") k' =
        aget [] (aget [] witnessCollector.telemetry_streams "physiological") k')
    ∧ keys (aget [] (process_and_store witnessCollector witnessState).1.telemetry_streams
        "physiological") =
        keys (aget [] witnessCollector.telemetry_streams "physiological") :=
  c6_append_iff_declared witnessCollector witnessState "physiological"
    witnessState.physiological "heart_rate" 70
    (by decide) (by decide) (by decide) (by decide)

theorem storeStreams_collect_init (e : SimEnv) :
    storeStreams initTelemetryStreams (collect_current_state e) = initTelemetryStreams := rfl

theorem pipeline_preserves_init (es : List SimEnv) (c : Collector)
    (hc : c.telemetry_streams = initTelemetryStreams) :
    (pipeline_iterations es c).telemetry_streams = initTelemetryStreams := by
  induction es generalizing c with
  | nil => exact hc
  | cons e es ih =>
    have hstep : pipeline_iterations (e :: es) c =
        pipeline_iterations es (process_and_store c (collect_current_state e)).1 := rfl
    rw [hstep]
    apply ih
    rw [process_and_store_telemetry, hc]
    exact storeStreams_collect_init e

/-- A concrete environment for one loop iteration: noon on a Thursday
(`time_of_day = 12`, `day_of_week = 3`) with plausible sensor draws. -/
def sampleEnv : SimEnv :=
  ⟨0, 70, 50, 1, 98, 16, 1, 1, 1, 1, 1, 1, 2, 1, 12, 3, 1, 1⟩

/-- **C7.** `collect_current_state` samples the metric names `heart_rate`,
`hrv_rmssd`, ..., `noise_level`, none of which occurs among the pre-declared
stream keys, so `process_and_store` leaves the initial `telemetry_streams`
mapping unchanged and every per-metric sequence stays empty after any number
of pipeline iterations from the initial collector. -/
theorem c7_pipeline_streams_unchanged (es : List SimEnv) (e : SimEnv) (c : Collector)
    (hc : c.telemetry_streams = initTelemetryStreams) :
    (process_and_store c (collect_current_state e)).1.telemetry_streams = initTelemetryStreams
    ∧ (pipeline_iterations es Collector.init).telemetry_streams = initTelemetryStreams
    ∧ ((categoryPairs (collect_current_state e)).map (fun p => (p.1, keys p.2)) =
        [("physiological",
          ["heart_rate", "hrv_rmssd", "gsr", "temperature", "respiratory_rate"]),
         ("cognitive_state",
          ["attention_level", "cognitive_load", "focus_stability", "executive_function"]),
         ("behavioral_patterns",
          ["typing_rhythm", "mouse_dynamics", "task_switching", "stress_indicators"]),
         ("environmental_context",
          ["time_of_day", "day_of_week", "ambient_light", "noise_level"])])
    ∧ (∀ cat d, (cat, d) ∈ categoryPairs (collect_current_state e) →
        ∀ k ∈ keys d, hasKey (aget [] initTelemetryStreams cat) k = false)
    ∧ (∀ p ∈ initTelemetryStreams, ∀ q ∈ p.2, q.2 = ([] : List Entry)) := by
  refine ⟨?_, pipeline_preserves_init es Collector.init rfl, rfl, ?_, by decide⟩
  · rw [process_and_store_telemetry, hc]
    exact storeStreams_collect_init e
  · intro cat d hcd k hk
    simp only [categoryPairs, collect_current_state, List.mem_cons, List.mem_singleton,
      List.not_mem_nil, or_false, Prod.mk.injEq] at hcd
    rcases hcd with ⟨rfl, rfl⟩ | ⟨rfl, rfl⟩ | ⟨rfl, rfl⟩ | ⟨rfl, rfl⟩ <;>
      simp only [keys, List.map_cons, List.map_nil] at hk <;>
      fin_cases hk <;> decide

theorem c7_pipeline_streams_unchanged_witness :
    ((process_and_store Collector.init (collect_current_state sampleEnv)).1.telemetry_streams =
      initTelemetryStreams)
    ∧ (pipeline_iterations [sampleEnv] Collector.init).telemetry_streams = initTelemetryStreams
    ∧ ((categoryPairs (collect_current_state sampleEnv)).map (fun p => (p.1, keys p.2)) =
        [("physiological",
          ["heart_rate", "hrv_rmssd", "gsr", "temperature", "respiratory_rate"]),
         ("cognitive_state",
          ["attention_level", "cognitive_load", "focus_stability", "executive_function"]),
         ("behavioral_patterns",
          ["typing_rhythm", "mouse_dynamics", "task_switching", "stress_indicators"]),
         ("environmental_context",
          ["time_of_day", "day_of_week", "ambient_light", "noise_level"])])
    ∧ (∀ cat d, (cat, d) ∈ categoryPairs (collect_current_state sampleEnv) →
        ∀ k ∈ keys d, hasKey (aget [] initTelemetryStreams cat) k = false)
    ∧ (∀ p ∈ initTelemetryStreams, ∀ q ∈ p.2, q.2 = ([] : List Entry)) :=
  c7_pipeline_streams_unchanged [sampleEnv] sampleEnv Collector.init rfl

/-- `self.collection_active = True` at the top of
`start_continuous_collection` (line 65). -/
def start_collection (c : Collector) : Collector :=
  { c with collection_active := true }

/-- `stop_collection` (lines 268-271): clears the flag (the clean log message
is not modelled as loop output since it is printed by the caller, not the
loop). -/
def stop_collection (c : Collector) : Collector :=
  { c with collection_active := false }

/-- One script element driving the collection loop: the outcome of one
iteration's data path (`body`, a successful sample environment or an
exception message), or a cooperative `stop_collection` call occurring at the
suspension point between iterations (`stop`). -/
inductive LoopInput
  | body (outcome : Except String SimEnv)
  | stop

/-- The observable state of the loop: the collector plus the lines printed
and the sleeps performed inside the loop. -/
structure LoopState where
  coll : Collector
  log : List String
  sleeps : List ℚ

/-- One iteration body of `start_continuous_collection` (lines 69-79): on
success, `collect_current_state` then `process_and_store` (whose persistence
stub prints the stored-record line), then `asyncio.sleep(1.0 /
self.sample_rate)`; on an exception anywhere in the body, the `except`
branch prints `Collection error: {e}` and performs `asyncio.sleep(1.0)`. -/
def loopBody (st : LoopState) (outcome : Except String SimEnv) : LoopState :=
  match outcome with
  | .ok e =>
    { st with
      coll := (process_and_store st.coll (collect_current_state e)).1,
      log := st.log ++ ["Stored training record at " ++ toString e.ts],
      sleeps := st.sleeps ++ [1 / st.coll.sample_rate] }
  | .error msg =>
    { st with
      log := st.log ++ ["Collection error: " ++ msg],
      sleeps := st.sleeps ++ [1] }

/-- The `while self.collection_active` loop of `start_continuous_collection`
(lines 68-79), driven by a script of inputs.  The flag is checked at the top
of each iteration: when it is down the loop exits, leaving the rest of the
script unconsumed (a later `stop` is then a no-op on an already-stopped
collector).  Each `body` runs atomically, matching the cooperative scheduler
with one suspension point per iteration. -/
def run_loop : List LoopInput → LoopState → LoopState
  | [], st => st
  | .stop :: rest, st => run_loop rest { st with coll := stop_collection st.coll }
  | .body o :: rest, st =>
    if st.coll.collection_active then run_loop rest (loopBody st o) else st

theorem stop_collection_noop (c : Collector) (hc : c.collection_active = false) :
    stop_collection c = c := by
  cases c with
  | mk cstreams cact csr =>
    change cact = false at hc
    subst hc
    rfl

theorem run_loop_inactive (ins : List LoopInput) (st : LoopState)
    (h : st.coll.collection_active = false) : run_loop ins st = st := by
  induction ins generalizing st with
  | nil => rfl
  | cons i rest ih =>
    cases i with
    | stop =>
      simp only [run_loop, stop_collection_noop st.coll h]
      exact ih st h
    | body o =>
      simp only [run_loop]
      rw [if_neg (by rw [h]; decide)]

/-- **C9.** Every iteration whose data path raises an exception is caught at
the loop boundary: the error line `Collection error: {e}` is printed, a
one-second wait occurs, the collector (its flag and streams) is untouched,
and the loop continues with the rest of the script — for a script of any
number of consecutive erroring iterations, all of them are processed and the
loop never terminates because of them. -/
theorem c9_errors_caught_logged_loop_continues (msgs : List String) (st : LoopState)
    (h : st.coll.collection_active = true) :
    run_loop (msgs.map fun m => LoopInput.body (Except.error m)) st =
      { st with
        log := st.log ++ msgs.map (fun m => "Collection error: " ++ m),
        sleeps := st.sleeps ++ msgs.map (fun _ => (1 : ℚ)) } := by
  induction msgs generalizing st with
  | nil => simp [run_loop]
  | cons m ms ih =>
    simp only [List.map_cons, run_loop]
    rw [if_pos h]
    have hflag : (loopBody st (Except.error m)).coll.collection_active = true := h
    rw [ih (loopBody st (Except.error m)) hflag]
    simp [loopBody]

theorem c9_errors_caught_witness :
    run_loop (["sensor offline", "db closed"].map fun m => LoopInput.body (Except.error m))
      ⟨start_collection Collector.init, [], []⟩ =
      { coll := start_collection Collector.init,
        log := [] ++ ["sensor offline", "db closed"].map (fun m => "Collection error: " ++ m),
        sleeps := [] ++ ["sensor offline", "db closed"].map (fun _ => (1 : ℚ)) } :=
  c9_errors_caught_logged_loop_continues ["sensor offline", "db closed"]
    ⟨start_collection Collector.init, [], []⟩ rfl

/-- **C10.** The loop checks `collection_active` at the top of every iteration
and performs a new iteration exactly when the flag is set; `stop_collection`
clears the flag, and once it is cleared no further iteration begins: whatever
the remaining script, the loop state after a `stop` is exactly the stopped
state — nothing more is printed, slept, or stored (an in-flight iteration is
atomic in this model, so it is never interrupted). -/
theorem c10_cooperative_stop (o : Except String SimEnv)
    (rest ins : List LoopInput) (st : LoopState) (c : Collector) :
    (stop_collection c).collection_active = false
    ∧ run_loop (LoopInput.body o :: rest) st =
        (if st.coll.collection_active then run_loop rest (loopBody st o) else st)
    ∧ run_loop (LoopInput.stop :: ins) st = { st with coll := stop_collection st.coll } := by
  refine ⟨rfl, rfl, ?_⟩
  simp only [run_loop]
  exact run_loop_inactive ins _ rfl

end Nexis
